import Mathlib

/-!
Verification of the `crawl` package (a bounded-concurrency HTTP fetch
engine) against its natural-language specification.  The Go source is
shallowly embedded: pure functions become Lean functions, calls into the
network or into external libraries become explicit oracle parameters, and
the per-URL control flow of a worker becomes a function from oracle
answers to the list of observable events it produces.
-/

namespace Crawl

/-- Go `error` values that the embedded code can return.  `useLastResponse`
is `http.ErrUseLastResponse`; `other` stands for any distinct error value. -/
inductive GoError where
  | useLastResponse
  | contextCanceled
  | other (msg : String)
deriving DecidableEq, Repr

/-- The part of `*http.Request` the redirect policies inspect: `req.URL.Host`. -/
structure Request where
  host : String
deriving DecidableEq, Repr

/-- A redirect policy: given the pending request and the chain of prior
requests, return `none` (Go `nil`, allow) or `some e` (veto with error `e`). -/
def RedirectionPolicy := Request → List Request → Option GoError

/-- Embedding of `DefaultRedirectionPolicy` (handlers.go:113-120):
vetoes with `http.ErrUseLastResponse` once `len(via) >= maxRedirects`. -/
def DefaultRedirectionPolicy (maxRedirects : Int) : RedirectionPolicy :=
  fun _ via =>
    if maxRedirects ≤ (via.length : Int) then some .useLastResponse
    else none

/-- Embedding of `SameDomainRedirectionPolicy` (handlers.go:124-150).
The call into `publicsuffix.EffectiveTLDPlusOne` (an external library) is
abstracted as the oracle `etld : String → Option String`, where `none`
models the library returning an error. -/
def SameDomainRedirectionPolicy (etld : String → Option String) : RedirectionPolicy :=
  fun req via =>
    if 3 ≤ via.length then some .useLastResponse
    else
      match via with
      | [] => none
      | v0 :: _ =>
        match etld v0.host with
        | none => some .useLastResponse
        | some originalDomain =>
          match etld req.host with
          | none => some .useLastResponse
          | some currentDomain =>
            if originalDomain ≠ currentDomain then some .useLastResponse
            else none

/-! ### User-agent and client-hint derivation (useragent source file) -/

/-- Fixed fallback user agent (`defaultUserAgent` in the source). -/
def defaultUserAgent : String :=
  "Mozilla/5.0 (Macintosh; Intel Mac OS X 10_15_7) AppleWebKit/537.36 (KHTML, like Gecko) Chrome/144.0.0.0 Safari/537.36"

/-- Try to match the regular expression `Chrome/(\d+)\.` at the head of `l`:
the literal `Chrome/`, then a maximal non-empty digit run, then a literal
dot.  Returns the captured digit run.  (Backtracking cannot shorten the
greedy digit run usefully: any shorter run is followed by a digit, not a
dot, so the maximal-run formulation is exact.) -/
def matchChromeAt (l : List Char) : Option String :=
  if "Chrome/".data.isPrefixOf l then
    let rest := l.drop 7
    let ds := rest.takeWhile Char.isDigit
    if ds ≠ [] ∧ (rest.drop ds.length).head? = some '.' then
      some (String.mk ds)
    else none
  else none

/-- Leftmost match of `Chrome/(\d+)\.` in a character list, as Go's
`regexp.FindStringSubmatch` computes it. -/
def findChrome : List Char → Option String
  | [] => none
  | c :: cs =>
    match matchChromeAt (c :: cs) with
    | some v => some v
    | none => findChrome cs

/-- Embedding of `extractChromeVersion`: the first `Chrome/<digits>.`
capture in the user agent, or the fallback `"144"`. -/
def extractChromeVersion (userAgent : String) : String :=
  match findChrome userAgent.data with
  | some v => v
  | none => "144"

/-- Embedding of `generateSecChUa`: formats the extracted version into the
three-brand client-hint string. -/
def generateSecChUa (userAgent : String) : String :=
  let version := extractChromeVersion userAgent
  "\"Chromium\";v=\"" ++ version ++ "\", \"Google Chrome\";v=\"" ++ version
    ++ "\", \"Not_A Brand\";v=\"99\""

/-! ### User-agent acquisition (`fetchUserAgent` / `getUserAgent`) -/

/-- The outcomes of the external effects performed by `fetchUserAgent`:
request construction, the network round trip, the response status, and
reading the body. -/
structure FetchOracle where
  newRequest : Except GoError Unit
  doRequest : Except GoError Unit
  statusCode : Nat
  readBody : Except GoError String
deriving Repr

/-- Model of `strings.TrimSpace`: drop leading and trailing whitespace. -/
def goTrimSpace (s : String) : String :=
  String.mk (((s.data.dropWhile Char.isWhitespace).reverse.dropWhile
    Char.isWhitespace).reverse)

/-- Embedding of `fetchUserAgent`: any failure (request construction,
network, non-200 status, body read, empty trimmed body) falls back to
`defaultUserAgent`; otherwise the trimmed body is returned. -/
def fetchUserAgent (o : FetchOracle) : String :=
  match o.newRequest with
  | .error _ => defaultUserAgent
  | .ok _ =>
    match o.doRequest with
    | .error _ => defaultUserAgent
    | .ok _ =>
      if o.statusCode ≠ 200 then defaultUserAgent
      else
        match o.readBody with
        | .error _ => defaultUserAgent
        | .ok body =>
          let userAgent := goTrimSpace body
          if userAgent = "" then defaultUserAgent
          else userAgent

/-- Embedding of `getUserAgent`; the second component counts the network
fetches performed (0 or 1). -/
def getUserAgent (configUserAgent : String) (o : FetchOracle) : String × Nat :=
  if configUserAgent ≠ "" then (configUserAgent, 0)
  else (fetchUserAgent o, 1)

/-! ### Per-URL request pipeline (`processURL`, crawler.go:111-160) -/

/-- A request's header table: `""` is Go's `Header.Get` result for an
absent key. -/
def HeaderMap : Type := String → String

/-- Model of `req.Header.Set key value`. -/
def headerSet (h : HeaderMap) (key value : String) : HeaderMap :=
  fun k => if k = key then value else h k

/-- The `setHeaderIfNotExists` closure of `processURL`. -/
def setHeaderIfNotExists (h : HeaderMap) (key value : String) : HeaderMap :=
  if h key = "" then headerSet h key value else h

/-- The fourteen `setHeaderIfNotExists` calls of `processURL`, in source
order, with the derived `Sec-Ch-Ua` value spliced in. -/
def chromeDefaultHeaders (secChUa : String) : List (String × String) :=
  [("Accept", "text/html,application/xhtml+xml,application/xml;q=0.9,image/avif,image/webp,image/apng,*/*;q=0.8,application/signed-exchange;v=b3;q=0.7"),
   ("Accept-Language", "en-GB,en-US;q=0.9,en;q=0.8,nl;q=0.7,sv;q=0.6"),
   ("Cache-Control", "no-cache"),
   ("Pragma", "no-cache"),
   ("Priority", "u=0, i"),
   ("Referer", "https://www.google.com/"),
   ("Sec-Ch-Ua", secChUa),
   ("Sec-Ch-Ua-Mobile", "?0"),
   ("Sec-Ch-Ua-Platform", "\"macOS\""),
   ("Sec-Fetch-Dest", "document"),
   ("Sec-Fetch-Mode", "navigate"),
   ("Sec-Fetch-Site", "same-origin"),
   ("Sec-Fetch-User", "?1"),
   ("Upgrade-Insecure-Requests", "1")]

/-- The header phase of `processURL`: first the unconditional
`req.Header.Set("User-Agent", c.userAgent)`, then the fourteen
conditional defaults in source order. -/
def applyCrawlerHeaders (userAgent secChUa : String) (h : HeaderMap) : HeaderMap :=
  (chromeDefaultHeaders secChUa).foldl
    (fun h kv => setHeaderIfNotExists h kv.1 kv.2)
    (headerSet h "User-Agent" userAgent)

/-- Observable events of one `processURL` call. -/
inductive WorkerEvent where
  | requestSent
  | handlerInvoked
  | errorReported (url : String) (e : GoError)
deriving DecidableEq, Repr

/-- Outcomes of the effects `processURL` performs for one URL: the request
builder, `client.Do`, the response handler, and `resp.Body.Close()`. -/
structure URLOracle where
  build : Except GoError Unit
  send : Except GoError Unit
  handle : Option GoError
  close : Option GoError
deriving Repr

/-- Control flow of `processURL` as the list of events it produces, in
program order (the deferred body close runs last, after the response
handler and the report of its error, if any). -/
def processURL (url : String) (o : URLOracle) : List WorkerEvent :=
  match o.build with
  | .error e => [.errorReported url e]
  | .ok _ =>
    match o.send with
    | .error e => [.requestSent, .errorReported url e]
    | .ok _ =>
      [.requestSent] ++
      (match o.handle with
       | some e => [.handlerInvoked, .errorReported url e]
       | none => [.handlerInvoked]) ++
      (match o.close with
       | some e => [.errorReported url e]
       | none => [])

/-- A worker's loop body over the URLs it receives: each URL is processed
by `processURL` and the loop continues regardless of the outcome. -/
def workerRun (tasks : List (String × URLOracle)) : List WorkerEvent :=
  match tasks with
  | [] => []
  | t :: rest => processURL t.1 t.2 ++ workerRun rest

/-! ### `Run` lifecycle (crawler.go:69-91) -/

/-- The caller's cancellation token: `cancelAt = some k` means the token
is cancelled just before the dispatcher's k-th send; `none` means it is
never cancelled during the run. -/
structure CancelToken where
  cancelAt : Option Nat
deriving DecidableEq, Repr

/-- Whether `ctx.Done()` fires at dispatch step `step`. -/
def CancelToken.done (c : CancelToken) (step : Nat) : Bool :=
  match c.cancelAt with
  | none => false
  | some k => decide (k ≤ step)

/-- Value of `ctx.Err()` as observed when `Run` returns (after `wg.Wait()`). -/
def CancelToken.ctxErr (c : CancelToken) : Option GoError :=
  match c.cancelAt with
  | none => none
  | some _ => some .contextCanceled

/-- The dispatcher goroutine: for each URL of the generator, observe the
cancellation token and either stop (closing the queue) or send the URL. -/
def dispatchLoop (c : CancelToken) : List String → Nat → List String
  | [], _ => []
  | u :: us, step =>
    if c.done step then []
    else u :: dispatchLoop c us (step + 1)

/-- URLs that enter the queue during one `Run`. -/
def dispatched (c : CancelToken) (urls : List String) : List String :=
  dispatchLoop c urls 0

/-- URLs actually handed to `processURL` by the worker pool.  Without
cancellation the workers drain the closed queue completely; under
cancellation each worker exits after its in-flight URL, so only some
prefix amount `progress` of the dispatched URLs is processed. -/
def processedURLs (c : CancelToken) (urls : List String) (progress : Nat) : List String :=
  match c.cancelAt with
  | none => dispatched c urls
  | some _ => (dispatched c urls).take progress

/-- Observable events of one `Run` call. -/
inductive RunEvent where
  | processed (url : String)
  | workerExit (i : Nat)
  | finished (result : Option GoError)
deriving DecidableEq, Repr

/-- One `Run` call as its event trace: per-URL processing, then the exit
of every worker (`wg.Wait()`), then the return of `ctx.Err()`. -/
def Run (c : CancelToken) (urls : List String) (workerCount progress : Nat) :
    List RunEvent :=
  (processedURLs c urls progress).map RunEvent.processed
    ++ (List.range workerCount).map RunEvent.workerExit
    ++ [RunEvent.finished c.ctxErr]

/-! ### Engine construction (`New`, crawler.go:14-66) -/

/-- Identity of a redirect-policy value, for tracking which function `New`
installs on the client. -/
inductive PolicyTag where
  | defaultPolicy (maxRedirects : Int)
  | sameDomain
  | custom (id : Nat)
deriving DecidableEq, Repr

/-- Identity of a request-builder value. -/
inductive BuilderTag where
  | defaultBuilder
  | custom (id : Nat)
deriving DecidableEq, Repr

/-- Identity of a response-handler value. -/
inductive HandlerTag where
  | defaultHandler
  | custom (id : Nat)
deriving DecidableEq, Repr

/-- Identity of an error-handler value. -/
inductive ErrHandlerTag where
  | noop
  | custom (id : Nat)
deriving DecidableEq, Repr

/-- Model of `tls.Config`, restricted to the one field `New` touches. -/
structure TLSConfig where
  insecureSkipVerify : Bool
deriving DecidableEq, Repr

/-- The client's `Transport` field: `std` is a `*http.Transport` (with its
optional `TLSClientConfig`); `custom` is any other `RoundTripper`, whose
own TLS-verification behavior `verifiesTLS` is outside `New`'s reach. -/
inductive TransportVal where
  | std (tlsClientConfig : Option TLSConfig)
  | custom (id : Nat) (verifiesTLS : Bool)
deriving DecidableEq, Repr

/-- Whether a transport value skips TLS certificate verification. -/
def TransportVal.insecureTLS : TransportVal → Bool
  | .std tlsClientConfig => ((tlsClientConfig.getD ⟨false⟩).insecureSkipVerify)
  | .custom _ verifiesTLS => !verifiesTLS

/-- The two fields of `http.Client` that `New` reads or writes. -/
structure HttpClient where
  checkRedirect : Option PolicyTag
  transport : Option TransportVal
deriving DecidableEq, Repr

/-- The `Config` record (types.go:31-52), with function fields as tags. -/
structure Config where
  workerCount : Int
  requestBuilder : Option BuilderTag
  responseHandler : Option HandlerTag
  errorHandler : Option ErrHandlerTag
  userAgent : String
  redirectionPolicy : Option PolicyTag
  client : Option HttpClient
deriving DecidableEq, Repr

/-- Constant `defaultMaxRedirects` (crawler.go:10). -/
def defaultMaxRedirects : Int := 3

/-- The `Crawler` record as `New` populates it: the normalized config
fields, the prepared client, and the resolved identity. -/
structure Crawler where
  workerCount : Int
  requestBuilder : BuilderTag
  responseHandler : HandlerTag
  errorHandler : ErrHandlerTag
  redirectionPolicy : PolicyTag
  client : HttpClient
  userAgent : String
  secChUa : String
deriving DecidableEq, Repr

/-- Embedding of `New` (crawler.go:14-66).  A `nil` `config.Client` becomes
a zero-valued `http.Client` (both fields nil); the copy gets the resolved
redirect policy only when its `CheckRedirect` is nil; the transport is
created insecure when nil, forced insecure when it is a `*http.Transport`,
and left untouched otherwise. -/
def New (config : Config) (o : FetchOracle) : Crawler :=
  let workerCount := if config.workerCount ≤ 0 then 10 else config.workerCount
  let requestBuilder := config.requestBuilder.getD .defaultBuilder
  let responseHandler := config.responseHandler.getD .defaultHandler
  let errorHandler := config.errorHandler.getD .noop
  let redirectionPolicy :=
    config.redirectionPolicy.getD (.defaultPolicy defaultMaxRedirects)
  let client := config.client.getD ⟨none, none⟩
  let client :=
    if client.checkRedirect = none then
      { client with checkRedirect := some redirectionPolicy }
    else client
  let client :=
    match client.transport with
    | none => { client with transport := some (.std (some ⟨true⟩)) }
    | some (.std tlsClientConfig) =>
      let tlsClientConfig := tlsClientConfig.getD ⟨false⟩
      let tlsClientConfig := { tlsClientConfig with insecureSkipVerify := true }
      { client with transport := some (.std (some tlsClientConfig)) }
    | some (.custom _ _) => client
  let userAgent := (getUserAgent config.userAgent o).1
  { workerCount := workerCount
    requestBuilder := requestBuilder
    responseHandler := responseHandler
    errorHandler := errorHandler
    redirectionPolicy := redirectionPolicy
    client := client
    userAgent := userAgent
    secChUa := generateSecChUa userAgent }

/-! ### Concrete fixtures used by closed witnesses -/

/-- A fetch oracle for a clean 200 response with body `"x"`. -/
def okFetch : FetchOracle := ⟨.ok (), .ok (), 200, .ok "x"⟩

/-- A configuration whose client brings its own redirect function and a
non-standard transport that still verifies TLS. -/
def customClientConfig : Config :=
  { workerCount := 1, requestBuilder := none, responseHandler := none,
    errorHandler := none, userAgent := "ua", redirectionPolicy := none,
    client := some ⟨some (.custom 7), some (.custom 0 true)⟩ }

/-- A configuration with no caller-supplied client and a negative worker
count. -/
def noClientConfig : Config :=
  { workerCount := -5, requestBuilder := none, responseHandler := none,
    errorHandler := none, userAgent := "ua", redirectionPolicy := none,
    client := none }

/-- A configuration with a positive worker count and custom callbacks. -/
def customCallbacksConfig : Config :=
  { workerCount := 7, requestBuilder := some (.custom 3),
    responseHandler := none, errorHandler := none, userAgent := "ua",
    redirectionPolicy := some .sameDomain, client := none }

/-! ## Theorems -/

/-- C4: for every maximum hop count `n` and every prior chain,
`DefaultRedirectionPolicy n` allows (returns `nil`) exactly when the chain
length is strictly below `n`, vetoes only with `http.ErrUseLastResponse`,
and its decision depends only on the chain length. -/
theorem DefaultRedirectionPolicy_spec (n : Int) (req : Request) (via : List Request) :
    (DefaultRedirectionPolicy n req via = none ↔ (via.length : Int) < n) ∧
    (∀ e, DefaultRedirectionPolicy n req via = some e → e = GoError.useLastResponse) ∧
    (∀ (req' : Request) (via' : List Request), via'.length = via.length →
      DefaultRedirectionPolicy n req' via' = DefaultRedirectionPolicy n req via) := by
  refine ⟨?_, ?_, ?_⟩
  · by_cases h : n ≤ (via.length : Int)
    · simp only [DefaultRedirectionPolicy, if_pos h]
      constructor
      · intro he; cases he
      · intro hlt; omega
    · simp only [DefaultRedirectionPolicy, if_neg h]
      constructor
      · intro _; omega
      · intro _; trivial
  · intro e he
    by_cases h : n ≤ (via.length : Int)
    · simp only [DefaultRedirectionPolicy, if_pos h] at he
      exact (Option.some.inj he).symm
    · simp only [DefaultRedirectionPolicy, if_neg h] at he
      cases he
  · intro req' via' hlen
    simp only [DefaultRedirectionPolicy, hlen]

/-- Closed witness for `DefaultRedirectionPolicy_spec` at limit 3: a chain
of length 2 is allowed, a chain of length 3 is vetoed with the
use-last-response sentinel. -/
theorem DefaultRedirectionPolicy_spec_witness :
    DefaultRedirectionPolicy 3 ⟨"example.com"⟩ [⟨"a.com"⟩, ⟨"b.com"⟩] = none ∧
    GoError.useLastResponse = GoError.useLastResponse := by
  refine ⟨?_, ?_⟩
  · exact (DefaultRedirectionPolicy_spec 3 ⟨"example.com"⟩
      [⟨"a.com"⟩, ⟨"b.com"⟩]).1.mpr (by decide)
  · exact (DefaultRedirectionPolicy_spec 3 ⟨"example.com"⟩
      [⟨"a.com"⟩, ⟨"b.com"⟩, ⟨"c.com"⟩]).2.1 GoError.useLastResponse (by decide)

/-- C3: for every non-empty prior chain, `SameDomainRedirectionPolicy`
allows (returns `nil`) exactly when the chain is shorter than 3 and the
registrable domains of the first chain entry and of the pending request
both parse and agree; every veto is `http.ErrUseLastResponse`. -/
theorem SameDomainRedirectionPolicy_spec (etld : String → Option String)
    (req : Request) (via : List Request) (hvia : via ≠ []) :
    (SameDomainRedirectionPolicy etld req via = none ↔
      (via.length < 3 ∧
        ∃ d, etld (via.head hvia).host = some d ∧ etld req.host = some d)) ∧
    (∀ e, SameDomainRedirectionPolicy etld req via = some e →
      e = GoError.useLastResponse) := by
  obtain ⟨v0, vs, rfl⟩ := List.exists_cons_of_ne_nil hvia
  simp only [List.head_cons]
  by_cases h3 : 3 ≤ (v0 :: vs).length
  · simp only [SameDomainRedirectionPolicy, if_pos h3]
    constructor
    · constructor
      · intro he; cases he
      · intro hc; exact absurd hc.1 (by omega)
    · intro e he; exact (Option.some.inj he).symm
  · simp only [SameDomainRedirectionPolicy, if_neg h3]
    cases hv0 : etld v0.host with
    | none =>
      simp only [hv0]
      constructor
      · constructor
        · intro he; cases he
        · rintro ⟨-, d, hd, -⟩; cases hd
      · intro e he; exact (Option.some.inj he).symm
    | some d0 =>
      simp only [hv0]
      cases hr : etld req.host with
      | none =>
        simp only [hr]
        constructor
        · constructor
          · intro he; cases he
          · rintro ⟨-, d, -, hd⟩; cases hd
        · intro e he; exact (Option.some.inj he).symm
      | some d1 =>
        simp only [hr]
        by_cases hd : d0 ≠ d1
        · rw [if_pos hd]
          constructor
          · constructor
            · intro he; cases he
            · rintro ⟨-, d, hd0, hd1⟩
              exact absurd ((Option.some.inj hd0).trans (Option.some.inj hd1).symm) hd
          · intro e he; exact (Option.some.inj he).symm
        · rw [if_neg hd]
          rw [not_not] at hd
          subst hd
          constructor
          · constructor
            · intro _
              exact ⟨by omega, d0, rfl, rfl⟩
            · intro _
              trivial
          · intro e he; cases he

/-- Closed witness for `SameDomainRedirectionPolicy_spec`: with an identity
domain oracle, a one-entry chain on the same host is allowed. -/
theorem SameDomainRedirectionPolicy_spec_witness :
    SameDomainRedirectionPolicy (fun s => some s) ⟨"example.com"⟩
      [⟨"example.com"⟩] = none := by
  exact (SameDomainRedirectionPolicy_spec (fun s => some s) ⟨"example.com"⟩
    [⟨"example.com"⟩] (by decide)).1.mpr
    ⟨by decide, "example.com", rfl, rfl⟩

/-- C5: `generateSecChUa` is a pure function of the user-agent string: it
formats exactly the three-brand client-hint string around the version
extracted from the first `Chrome/<digits>.` occurrence, with fallback
version `"144"` when no such pattern occurs. -/
theorem generateSecChUa_spec (ua : String) :
    generateSecChUa ua =
      "\"Chromium\";v=\"" ++ extractChromeVersion ua ++ "\", \"Google Chrome\";v=\""
        ++ extractChromeVersion ua ++ "\", \"Not_A Brand\";v=\"99\"" ∧
    (∀ v, findChrome ua.data = some v → extractChromeVersion ua = v) ∧
    (findChrome ua.data = none → extractChromeVersion ua = "144") := by
  refine ⟨rfl, ?_, ?_⟩
  · intro v hv
    simp [extractChromeVersion, hv]
  · intro hv
    simp [extractChromeVersion, hv]

/-- Closed witness for `generateSecChUa_spec` at a Chrome-style user agent
and at a non-matching one. -/
theorem generateSecChUa_spec_witness :
    extractChromeVersion "Mozilla/5.0 Chrome/131.0.0.0 Safari/537.36" = "131" ∧
    extractChromeVersion "curl/8.0" = "144" := by
  refine ⟨?_, ?_⟩
  · exact (generateSecChUa_spec "Mozilla/5.0 Chrome/131.0.0.0 Safari/537.36").2.1
      "131" (by decide)
  · exact (generateSecChUa_spec "curl/8.0").2.2 (by decide)

/-- C6 counterexample: the user agent `"Chrome/7.0 Chrome/144.0.0.0"`
contains `Chrome/144.0.0.0`, yet `generateSecChUa` extracts the earlier
occurrence `7`, so the token `144` appears in none of the three quoted
brand entries of the result (the result contains no `144` at all). -/
theorem generateSecChUa_contains144_counterexample :
    List.IsInfix "Chrome/144.0.0.0".data "Chrome/7.0 Chrome/144.0.0.0".data ∧
    generateSecChUa "Chrome/7.0 Chrome/144.0.0.0" =
      "\"Chromium\";v=\"7\", \"Google Chrome\";v=\"7\", \"Not_A Brand\";v=\"99\"" ∧
    ¬ List.IsInfix "144".data
        (generateSecChUa "Chrome/7.0 Chrome/144.0.0.0").data := by
  refine ⟨by decide, by decide, by decide⟩

/-- C6 amended: whenever the first `Chrome/<digits>.` occurrence in the
user agent carries the digits `144` — or no such occurrence exists, in
which case the fallback version `144` is used — `generateSecChUa` yields
the token `144` in the first two quoted brand entries, the third being
the fixed `"Not_A Brand";v="99"`. -/
theorem generateSecChUa_144 (ua : String)
    (h : findChrome ua.data = some "144" ∨ findChrome ua.data = none) :
    generateSecChUa ua =
      "\"Chromium\";v=\"144\", \"Google Chrome\";v=\"144\", \"Not_A Brand\";v=\"99\"" := by
  unfold generateSecChUa extractChromeVersion
  rcases h with h | h <;> rw [h] <;> rfl

/-- Closed witness for `generateSecChUa_144`: the hardcoded fallback user
agent has `Chrome/144.` as its first (and only) Chrome token. -/
theorem generateSecChUa_144_witness :
    generateSecChUa defaultUserAgent =
      "\"Chromium\";v=\"144\", \"Google Chrome\";v=\"144\", \"Not_A Brand\";v=\"99\"" :=
  generateSecChUa_144 defaultUserAgent (Or.inl (by decide))

/-- Applying `setHeaderIfNotExists` leaves every other key unchanged. -/
theorem setHeaderIfNotExists_apply_ne (h : HeaderMap) (key value k : String)
    (hk : k ≠ key) : setHeaderIfNotExists h key value k = h k := by
  unfold setHeaderIfNotExists headerSet
  split
  · simp [hk]
  · rfl

/-- A fold of conditional header defaults leaves keys outside the list
unchanged. -/
theorem fold_setHeader_not_mem (l : List (String × String)) (h : HeaderMap)
    (k : String) (hk : ∀ kv ∈ l, kv.1 ≠ k) :
    l.foldl (fun h kv => setHeaderIfNotExists h kv.1 kv.2) h k = h k := by
  induction l generalizing h with
  | nil => rfl
  | cons a l ih =>
    simp only [List.foldl_cons]
    rw [ih _ (fun kv hkv => hk kv (List.mem_cons_of_mem a hkv))]
    exact setHeaderIfNotExists_apply_ne h a.1 a.2 k
      (Ne.symm (hk a (List.mem_cons_self a l)))

/-- A fold of conditional header defaults over pairwise-distinct keys sets
a listed key to its default exactly when the incoming map left it empty. -/
theorem fold_setHeader_mem (l : List (String × String)) (h : HeaderMap)
    (k v : String) (hmem : (k, v) ∈ l) (hnd : (l.map Prod.fst).Nodup) :
    l.foldl (fun h kv => setHeaderIfNotExists h kv.1 kv.2) h k
      = if h k = "" then v else h k := by
  induction l generalizing h with
  | nil => cases hmem
  | cons a l ih =>
    rcases List.mem_cons.mp hmem with heq | hmem'
    · subst heq
      simp only [List.foldl_cons]
      rw [fold_setHeader_not_mem l _ k ?notin]
      case notin =>
        intro kv hkv hkeq
        have hkin : k ∈ l.map Prod.fst := hkeq ▸ List.mem_map_of_mem Prod.fst hkv
        exact (List.nodup_cons.mp hnd).1 hkin
      unfold setHeaderIfNotExists headerSet
      split
      · simp
      · rfl
    · simp only [List.foldl_cons]
      have hne : k ≠ a.1 := by
        intro hkeq
        have hkin : k ∈ l.map Prod.fst := List.mem_map_of_mem Prod.fst hmem'
        exact (List.nodup_cons.mp hnd).1 (hkeq ▸ hkin)
      rw [ih _ hmem' (List.nodup_cons.mp hnd).2]
      rw [setHeaderIfNotExists_apply_ne h a.1 a.2 k hne]

/-- The keys touched by the fourteen conditional defaults, in source
order; independent of the derived `Sec-Ch-Ua` value. -/
theorem chromeDefaultHeaders_keys (secChUa : String) :
    (chromeDefaultHeaders secChUa).map Prod.fst =
      ["Accept", "Accept-Language", "Cache-Control", "Pragma", "Priority",
       "Referer", "Sec-Ch-Ua", "Sec-Ch-Ua-Mobile", "Sec-Ch-Ua-Platform",
       "Sec-Fetch-Dest", "Sec-Fetch-Mode", "Sec-Fetch-Site",
       "Sec-Fetch-User", "Upgrade-Insecure-Requests"] := rfl

/-- C1: the header phase of `processURL` forces `User-Agent` to the
engine's resolved user agent (a builder-set value is discarded for this
header), and sets each of the fourteen default headers only when the
builder left it empty, leaving builder-supplied non-empty values
unchanged. -/
theorem processURL_headers (userAgent secChUa : String) (h : HeaderMap) :
    applyCrawlerHeaders userAgent secChUa h "User-Agent" = userAgent ∧
    ∀ k v, (k, v) ∈ chromeDefaultHeaders secChUa →
      (h k = "" → applyCrawlerHeaders userAgent secChUa h k = v) ∧
      (h k ≠ "" → applyCrawlerHeaders userAgent secChUa h k = h k) := by
  constructor
  · unfold applyCrawlerHeaders
    rw [fold_setHeader_not_mem _ _ _ ?ua]
    case ua =>
      intro kv hkv hkeq
      have hkin : kv.1 ∈ (chromeDefaultHeaders secChUa).map Prod.fst :=
        List.mem_map_of_mem Prod.fst hkv
      rw [chromeDefaultHeaders_keys, hkeq] at hkin
      exact absurd hkin (by decide)
    simp [headerSet]
  · intro k v hmem
    have hknd : ((chromeDefaultHeaders secChUa).map Prod.fst).Nodup := by
      rw [chromeDefaultHeaders_keys]
      decide
    have hkUA : k ≠ "User-Agent" := by
      intro hkeq
      have hkin : k ∈ (chromeDefaultHeaders secChUa).map Prod.fst :=
        List.mem_map_of_mem Prod.fst hmem
      rw [chromeDefaultHeaders_keys, hkeq] at hkin
      exact absurd hkin (by decide)
    have hres := fold_setHeader_mem _ (headerSet h "User-Agent" userAgent) k v hmem hknd
    have hbase : headerSet h "User-Agent" userAgent k = h k := by
      simp [headerSet, hkUA]
    rw [hbase] at hres
    constructor
    · intro he
      rw [applyCrawlerHeaders, hres, if_pos he]
    · intro he
      rw [applyCrawlerHeaders, hres, if_neg he]

/-- Closed witness for `processURL_headers`: a builder that set `Accept`
keeps its value, an unset `Pragma` receives the default, and a builder-set
`User-Agent` is overwritten. -/
theorem processURL_headers_witness :
    (applyCrawlerHeaders "UA" "SEC"
      (fun k => if k = "Accept" then "custom" else if k = "User-Agent" then "builder" else "")
      "Accept" = "custom") ∧
    (applyCrawlerHeaders "UA" "SEC"
      (fun k => if k = "Accept" then "custom" else if k = "User-Agent" then "builder" else "")
      "Pragma" = "no-cache") ∧
    (applyCrawlerHeaders "UA" "SEC"
      (fun k => if k = "Accept" then "custom" else if k = "User-Agent" then "builder" else "")
      "User-Agent" = "UA") := by
  refine ⟨?_, ?_, ?_⟩
  · exact ((processURL_headers "UA" "SEC" _).2 "Accept"
      "text/html,application/xhtml+xml,application/xml;q=0.9,image/avif,image/webp,image/apng,*/*;q=0.8,application/signed-exchange;v=b3;q=0.7"
      (by simp [chromeDefaultHeaders])).2 (by decide)
  · exact ((processURL_headers "UA" "SEC" _).2 "Pragma" "no-cache"
      (by simp [chromeDefaultHeaders])).1 (by decide)
  · exact (processURL_headers "UA" "SEC" _).1

/-- C2: each of the four per-URL failure classes is routed to the error
handler with the URL; a build failure stops processing with no request
sent; a transport failure skips the response handler; handler and close
errors are both reported; and the worker loop continues with the next URL
in every case. -/
theorem processURL_error_routing (url : String) (o : URLOracle) :
    (∀ e, o.build = .error e →
      processURL url o = [.errorReported url e] ∧
      WorkerEvent.requestSent ∉ processURL url o) ∧
    (∀ e, o.build = .ok () → o.send = .error e →
      WorkerEvent.errorReported url e ∈ processURL url o ∧
      WorkerEvent.handlerInvoked ∉ processURL url o) ∧
    (∀ e, o.build = .ok () → o.send = .ok () → o.handle = some e →
      WorkerEvent.errorReported url e ∈ processURL url o) ∧
    (∀ e, o.build = .ok () → o.send = .ok () → o.close = some e →
      WorkerEvent.errorReported url e ∈ processURL url o) ∧
    (∀ rest, workerRun ((url, o) :: rest) = processURL url o ++ workerRun rest) := by
  obtain ⟨b, s, ha, hcl⟩ := o
  refine ⟨?_, ?_, ?_, ?_, ?_⟩
  · intro e he
    cases he
    simp [processURL]
  · intro e hb hs
    cases hb
    cases hs
    simp [processURL]
  · intro e hb hs hh
    cases hb
    cases hs
    cases hh
    cases hcl <;> simp [processURL]
  · intro e hb hs hc
    cases hb
    cases hs
    cases hc
    cases ha <;> simp [processURL]
  · intro rest
    rfl

/-- Closed witness for `processURL_error_routing`: a build failure yields
exactly one error report, and a body-close failure is reported. -/
theorem processURL_error_routing_witness :
    processURL "u" ⟨.error (.other "bad"), .ok (), none, none⟩
      = [.errorReported "u" (.other "bad")] ∧
    WorkerEvent.errorReported "u" (.other "closefail") ∈
      processURL "u" ⟨.ok (), .ok (), none, some (.other "closefail")⟩ := by
  refine ⟨?_, ?_⟩
  · exact ((processURL_error_routing "u" _).1 (.other "bad") rfl).1
  · exact (processURL_error_routing "u" _).2.2.2.1 (.other "closefail") rfl rfl rfl

/-- On the success path, `fetchUserAgent` returns the trimmed body. -/
theorem fetchUserAgent_success (o : FetchOracle) (body : String)
    (hnr : o.newRequest = .ok ()) (hdr : o.doRequest = .ok ())
    (hsc : o.statusCode = 200) (hrb : o.readBody = .ok body)
    (hne : goTrimSpace body ≠ "") : fetchUserAgent o = goTrimSpace body := by
  obtain ⟨nr, dr, sc, rb⟩ := o
  cases hnr
  cases hdr
  cases hsc
  cases hrb
  simp [fetchUserAgent, hne]

/-- On every failure path, `fetchUserAgent` returns the hardcoded
fallback. -/
theorem fetchUserAgent_failure (o : FetchOracle)
    (h : (∃ e, o.newRequest = .error e) ∨ (∃ e, o.doRequest = .error e) ∨
      o.statusCode ≠ 200 ∨ (∃ e, o.readBody = .error e) ∨
      (∃ body, o.readBody = .ok body ∧ goTrimSpace body = "")) :
    fetchUserAgent o = defaultUserAgent := by
  obtain ⟨nr, dr, sc, rb⟩ := o
  cases nr with
  | error e => rfl
  | ok u =>
    cases u
    cases dr with
    | error e => rfl
    | ok u =>
      cases u
      by_cases hsc : sc = 200
      · cases hsc
        cases rb with
        | error e => rfl
        | ok body =>
          rcases h with ⟨e, he⟩ | ⟨e, he⟩ | hne | ⟨e, he⟩ | ⟨body', hb', hempty⟩
          · cases he
          · cases he
          · exact absurd rfl hne
          · cases he
          · cases hb'
            simp [fetchUserAgent, hempty]
      · simp [fetchUserAgent, hsc]

/-- C7: `getUserAgent` returns a non-empty configured user agent unchanged
with no fetch; with an empty configured string it performs exactly one
fetch, falling back to the hardcoded user agent on any failure and
returning the trimmed body on success. -/
theorem getUserAgent_spec (configUserAgent : String) (o : FetchOracle) :
    (configUserAgent ≠ "" → getUserAgent configUserAgent o = (configUserAgent, 0)) ∧
    (configUserAgent = "" →
      (getUserAgent configUserAgent o).2 = 1 ∧
      (((∃ e, o.newRequest = .error e) ∨ (∃ e, o.doRequest = .error e) ∨
        o.statusCode ≠ 200 ∨ (∃ e, o.readBody = .error e) ∨
        (∃ body, o.readBody = .ok body ∧ goTrimSpace body = "")) →
        (getUserAgent configUserAgent o).1 = defaultUserAgent) ∧
      (∀ body, o.newRequest = .ok () → o.doRequest = .ok () →
        o.statusCode = 200 → o.readBody = .ok body → goTrimSpace body ≠ "" →
        (getUserAgent configUserAgent o).1 = goTrimSpace body)) := by
  constructor
  · intro h
    simp [getUserAgent, h]
  · intro h
    subst h
    refine ⟨by simp [getUserAgent], ?_, ?_⟩
    · intro hfail
      simp only [getUserAgent, ne_eq, not_true_eq_false, if_false]
      exact fetchUserAgent_failure o hfail
    · intro body hnr hdr hsc hrb hne
      simp only [getUserAgent, ne_eq, not_true_eq_false, if_false]
      exact fetchUserAgent_success o body hnr hdr hsc hrb hne

/-- Closed witness for `getUserAgent_spec`: an explicit user agent is
passed through with no fetch; with no explicit user agent, a 500 response
falls back and a 200 response yields the trimmed body. -/
theorem getUserAgent_spec_witness :
    getUserAgent "explicit" ⟨.ok (), .ok (), 200, .ok "x"⟩ = ("explicit", 0) ∧
    (getUserAgent "" ⟨.ok (), .ok (), 500, .ok "x"⟩).1 = defaultUserAgent ∧
    (getUserAgent "" ⟨.ok (), .ok (), 200, .ok " agent1 "⟩).1 = "agent1" := by
  refine ⟨?_, ?_, ?_⟩
  · exact (getUserAgent_spec "explicit" _).1 (by decide)
  · exact ((getUserAgent_spec "" ⟨.ok (), .ok (), 500, .ok "x"⟩).2 rfl).2.1
      (Or.inr (Or.inr (Or.inl (by decide))))
  · have h := ((getUserAgent_spec "" ⟨.ok (), .ok (), 200, .ok " agent1 "⟩).2
      rfl).2.2 " agent1 " rfl rfl rfl rfl (by decide)
    rw [h]
    rfl

/-- An uncancelled token lets the dispatcher forward the whole generator. -/
theorem dispatchLoop_none (c : CancelToken) (h : c.cancelAt = none)
    (urls : List String) (s : Nat) : dispatchLoop c urls s = urls := by
  induction urls generalizing s with
  | nil => rfl
  | cons u us ih =>
    simp only [dispatchLoop, CancelToken.done, h]
    exact congrArg (u :: ·) (ih (s + 1))

/-- A token cancelled at step `k` cuts the dispatcher off after the URLs
sent at steps before `k`. -/
theorem dispatchLoop_some (c : CancelToken) (k : Nat) (h : c.cancelAt = some k)
    (urls : List String) (s : Nat) :
    dispatchLoop c urls s = urls.take (k - s) := by
  induction urls generalizing s with
  | nil => simp [dispatchLoop]
  | cons u us ih =>
    simp only [dispatchLoop, CancelToken.done, h]
    by_cases hk : k ≤ s
    · rw [if_pos (by simpa using hk)]
      have h0 : k - s = 0 := by omega
      simp [h0]
    · rw [if_neg (by simpa using hk)]
      rw [ih (s + 1)]
      have h1 : k - s = (k - (s + 1)) + 1 := by omega
      rw [h1]
      rfl

/-- C8: a `Run` whose token is never cancelled processes every URL and
finishes with no error; a cancelled run finishes with the cancellation
error, emitted only after every worker has exited; and after a
cancellation at step `k` only the first `k` URLs are dispatched, so
handler invocations cannot exceed the URLs supplied before cancellation. -/
theorem Run_cancellation (c : CancelToken) (urls : List String)
    (workerCount progress : Nat) :
    (c.cancelAt = none →
      Run c urls workerCount progress =
        urls.map RunEvent.processed
          ++ (List.range workerCount).map RunEvent.workerExit
          ++ [RunEvent.finished none]) ∧
    (c.cancelAt ≠ none →
      ∃ body, Run c urls workerCount progress =
          body ++ [RunEvent.finished (some GoError.contextCanceled)] ∧
        ∀ i, i < workerCount → RunEvent.workerExit i ∈ body) ∧
    (∀ k, c.cancelAt = some k →
      dispatched c urls = urls.take k ∧
      (processedURLs c urls progress).length ≤ k ∧
      (processedURLs c urls progress).length ≤ urls.length) := by
  refine ⟨?_, ?_, ?_⟩
  · intro h
    simp [Run, processedURLs, dispatched, h, CancelToken.ctxErr,
      dispatchLoop_none c h]
  · intro h
    obtain ⟨k, hk⟩ := Option.ne_none_iff_exists'.mp h
    refine ⟨(processedURLs c urls progress).map RunEvent.processed
      ++ (List.range workerCount).map RunEvent.workerExit, ?_, ?_⟩
    · simp [Run, CancelToken.ctxErr, hk]
    · intro i hi
      apply List.mem_append_right
      exact List.mem_map_of_mem RunEvent.workerExit (List.mem_range.mpr hi)
  · intro k hk
    have hd : dispatched c urls = urls.take k := by
      have := dispatchLoop_some c k hk urls 0
      simpa [dispatched] using this
    refine ⟨hd, ?_, ?_⟩
    · simp [processedURLs, hk, hd, List.length_take]
    · simp [processedURLs, hk, hd, List.length_take]

/-- Closed witness for `Run_cancellation`: with no cancellation all three
URLs are processed and the run finishes clean; with cancellation at step 1
at most one URL is dispatched and the run finishes with the cancellation
error after both workers exit. -/
theorem Run_cancellation_witness :
    Run ⟨none⟩ ["a", "b", "c"] 1 0 =
      [RunEvent.processed "a", RunEvent.processed "b", RunEvent.processed "c",
       RunEvent.workerExit 0, RunEvent.finished none] ∧
    dispatched ⟨some 1⟩ ["a", "b", "c"] = ["a"] ∧
    (processedURLs ⟨some 1⟩ ["a", "b", "c"] 5).length ≤ 1 := by
  refine ⟨?_, ?_, ?_⟩
  · have h := (Run_cancellation ⟨none⟩ ["a", "b", "c"] 1 0).1 rfl
    simpa using h
  · exact ((Run_cancellation ⟨some 1⟩ ["a", "b", "c"] 1 5).2.2 1 rfl).1
  · exact ((Run_cancellation ⟨some 1⟩ ["a", "b", "c"] 1 5).2.2 1 rfl).2.1

/-- C9 counterexample: for a caller-supplied client that already has a
redirect-decision function and a non-standard transport, `New` neither
installs the resolved redirect policy (the caller's function survives)
nor disables TLS verification (the custom transport keeps verifying), so
the claim fails at this configuration. -/
theorem New_insecure_counterexample :
    (New customClientConfig okFetch).redirectionPolicy
      = PolicyTag.defaultPolicy 3 ∧
    (New customClientConfig okFetch).client.checkRedirect
      = some (PolicyTag.custom 7) ∧
    (New customClientConfig okFetch).client.transport
      = some (TransportVal.custom 0 true) ∧
    (TransportVal.custom 0 true).insecureTLS = false := by
  refine ⟨rfl, rfl, rfl, rfl⟩

/-- C9 amended: the transport handle `New` builds carries the resolved
redirect policy exactly when the (possibly defaulted) client's
`CheckRedirect` is nil — a caller-set one survives — and has TLS
verification disabled whenever the client's transport is nil or the
standard `*http.Transport`; a non-standard transport is left untouched. -/
theorem New_client_spec (config : Config) (o : FetchOracle) :
    (((config.client.getD ⟨none, none⟩).checkRedirect = none →
      (New config o).client.checkRedirect = some ((New config o).redirectionPolicy)) ∧
     (∀ p, (config.client.getD ⟨none, none⟩).checkRedirect = some p →
      (New config o).client.checkRedirect = some p)) ∧
    (((config.client.getD ⟨none, none⟩).transport = none →
      (New config o).client.transport = some (.std (some ⟨true⟩))) ∧
     (∀ tc, (config.client.getD ⟨none, none⟩).transport = some (.std tc) →
      (New config o).client.transport = some (.std (some ⟨true⟩))) ∧
     (∀ i v, (config.client.getD ⟨none, none⟩).transport = some (.custom i v) →
      (New config o).client.transport = some (.custom i v))) ∧
    (((config.client.getD ⟨none, none⟩).transport = none ∨
      (∃ tc, (config.client.getD ⟨none, none⟩).transport = some (.std tc))) →
      ∃ t, (New config o).client.transport = some t ∧ t.insecureTLS = true) := by
  rcases hcl : config.client.getD ⟨none, none⟩ with ⟨cr, tr⟩
  rcases cr with _ | p
  · rcases tr with _ | tv
    · refine ⟨⟨?_, ?_⟩, ⟨?_, ?_, ?_⟩, ?_⟩
      · intro _; simp [New, hcl]
      · intro p h; cases h
      · intro _; simp [New, hcl]
      · intro tc h; cases h
      · intro i v h; cases h
      · intro _
        refine ⟨.std (some ⟨true⟩), by simp [New, hcl], rfl⟩
    · rcases tv with tc | ⟨i, v⟩
      · refine ⟨⟨?_, ?_⟩, ⟨?_, ?_, ?_⟩, ?_⟩
        · intro _; simp [New, hcl]
        · intro p h; cases h
        · intro h; cases h
        · intro tc' h
          cases h
          simp [New, hcl]
        · intro i v h; cases h
        · intro _
          refine ⟨.std (some ⟨true⟩), by simp [New, hcl], rfl⟩
      · refine ⟨⟨?_, ?_⟩, ⟨?_, ?_, ?_⟩, ?_⟩
        · intro _; simp [New, hcl]
        · intro p h; cases h
        · intro h; cases h
        · intro tc' h; cases h
        · intro i' v' h
          cases h
          simp [New, hcl]
        · rintro (h | ⟨tc', h⟩) <;> cases h
  · rcases tr with _ | tv
    · refine ⟨⟨?_, ?_⟩, ⟨?_, ?_, ?_⟩, ?_⟩
      · intro h; cases h
      · intro p' h
        cases h
        simp [New, hcl]
      · intro _; simp [New, hcl]
      · intro tc h; cases h
      · intro i v h; cases h
      · intro _
        refine ⟨.std (some ⟨true⟩), by simp [New, hcl], rfl⟩
    · rcases tv with tc | ⟨i, v⟩
      · refine ⟨⟨?_, ?_⟩, ⟨?_, ?_, ?_⟩, ?_⟩
        · intro h; cases h
        · intro p' h
          cases h
          simp [New, hcl]
        · intro h; cases h
        · intro tc' h
          cases h
          simp [New, hcl]
        · intro i v h; cases h
        · intro _
          refine ⟨.std (some ⟨true⟩), by simp [New, hcl], rfl⟩
      · refine ⟨⟨?_, ?_⟩, ⟨?_, ?_, ?_⟩, ?_⟩
        · intro h; cases h
        · intro p' h
          cases h
          simp [New, hcl]
        · intro h; cases h
        · intro tc' h; cases h
        · intro i' v' h
          cases h
          simp [New, hcl]
        · rintro (h | ⟨tc', h⟩) <;> cases h

/-- Closed witness for `New_client_spec`: with no caller-supplied client,
`New` installs the resolved redirect policy and an insecure standard
transport. -/
theorem New_client_spec_witness :
    (New noClientConfig okFetch).client.checkRedirect
      = some (PolicyTag.defaultPolicy 3) ∧
    (New noClientConfig okFetch).client.transport
      = some (TransportVal.std (some ⟨true⟩)) := by
  constructor
  · have h := (New_client_spec noClientConfig okFetch).1.1 rfl
    simpa using h
  · exact (New_client_spec noClientConfig okFetch).2.1.1 rfl

/-- C10: `New` normalizes the configuration: any non-positive worker count
becomes 10 and positive counts are kept; each nil callback is replaced by
its stock default (`DefaultRequestBuilder`, `DefaultResponseHandler`,
`NoopErrorHandler`, `DefaultRedirectionPolicy(3)`) and non-nil callbacks
are stored unchanged. -/
theorem New_config_normalization (config : Config) (o : FetchOracle) :
    ((config.workerCount ≤ 0 → (New config o).workerCount = 10) ∧
     (0 < config.workerCount → (New config o).workerCount = config.workerCount)) ∧
    ((config.requestBuilder = none →
        (New config o).requestBuilder = .defaultBuilder) ∧
     (∀ b, config.requestBuilder = some b → (New config o).requestBuilder = b)) ∧
    ((config.responseHandler = none →
        (New config o).responseHandler = .defaultHandler) ∧
     (∀ rh, config.responseHandler = some rh → (New config o).responseHandler = rh)) ∧
    ((config.errorHandler = none → (New config o).errorHandler = .noop) ∧
     (∀ eh, config.errorHandler = some eh → (New config o).errorHandler = eh)) ∧
    ((config.redirectionPolicy = none →
        (New config o).redirectionPolicy = .defaultPolicy defaultMaxRedirects) ∧
     (∀ p, config.redirectionPolicy = some p →
        (New config o).redirectionPolicy = p)) := by
  refine ⟨⟨?_, ?_⟩, ⟨?_, ?_⟩, ⟨?_, ?_⟩, ⟨?_, ?_⟩, ⟨?_, ?_⟩⟩
  · intro h
    simp [New, if_pos h]
  · intro h
    simp [New, if_neg (by omega : ¬ config.workerCount ≤ 0)]
  · intro h
    simp [New, h]
  · intro b h
    simp [New, h]
  · intro h
    simp [New, h]
  · intro rh h
    simp [New, h]
  · intro h
    simp [New, h]
  · intro eh h
    simp [New, h]
  · intro h
    simp [New, h]
  · intro p h
    simp [New, h]

/-- Closed witness for `New_config_normalization`: a negative worker count
becomes 10 with all-default callbacks, and a positive count with custom
callbacks is stored unchanged. -/
theorem New_config_normalization_witness :
    (New noClientConfig okFetch).workerCount = 10 ∧
    (New customCallbacksConfig okFetch).workerCount = 7 ∧
    (New customCallbacksConfig okFetch).requestBuilder = .custom 3 ∧
    (New customCallbacksConfig okFetch).redirectionPolicy = .sameDomain := by
  refine ⟨?_, ?_, ?_, ?_⟩
  · exact (New_config_normalization noClientConfig okFetch).1.1 (by decide)
  · exact (New_config_normalization customCallbacksConfig okFetch).1.2 (by decide)
  · exact (New_config_normalization customCallbacksConfig okFetch).2.1.2
      (.custom 3) rfl
  · exact (New_config_normalization customCallbacksConfig okFetch).2.2.2.2.2
      (.sameDomain) rfl

end Crawl
